import Mathlib

/-!
Verification of the viewport-transform / coordinate-mapping / gesture core of
the photo-annotation editor (App.tsx and components/CanvasEditor.tsx).

Numbers are modelled as rationals (exact arithmetic in place of JS doubles);
`Math.hypot` is modelled through the rational square root, which agrees with
the real square root on every input used below (axis-aligned touch pairs whose
squared distance is a perfect square).
-/

namespace IvanPhoto

/-- A 2-D point (screen or image pixel coordinates), as the `{x, y}` records
of the source. -/
structure Pt where
  x : ℚ
  y : ℚ
deriving DecidableEq, Repr

/-- A DOM bounding rectangle, as returned by `getBoundingClientRect()`. -/
structure Rect where
  left : ℚ
  top : ℚ
  width : ℚ
  height : ℚ
deriving DecidableEq, Repr

/-- Natural (pixel) size of the bound photo, from the loaded `HTMLImageElement`. -/
structure Img where
  naturalWidth : ℚ
  naturalHeight : ℚ
deriving DecidableEq, Repr

/-- The contain-fit rectangle computed inline by `getCoordinates`
(CanvasEditor, lines 163-183): rendered size and letterbox offsets. -/
structure FitBox where
  offsetX : ℚ
  offsetY : ℚ
  renderedWidth : ℚ
  renderedHeight : ℚ
deriving DecidableEq, Repr

/-- Contain-fit layout, translated from `getCoordinates` lines 166-183:
if the image aspect exceeds the container aspect the image is
width-constrained (letterboxed top/bottom), otherwise height-constrained. -/
def renderedBox (img : Img) (rect : Rect) : FitBox :=
  let imageAspect := img.naturalWidth / img.naturalHeight
  let containerAspect := rect.width / rect.height
  if imageAspect > containerAspect then
    { offsetX := 0
      offsetY := (rect.height - rect.width / imageAspect) / 2
      renderedWidth := rect.width
      renderedHeight := rect.width / imageAspect }
  else
    { offsetX := (rect.width - rect.height * imageAspect) / 2
      offsetY := 0
      renderedWidth := rect.height * imageAspect
      renderedHeight := rect.height }

/-- Raw pointer input of `getCoordinates`: a mouse event carries a client
point, a touch event carries the current touch list. -/
inductive PointerInput where
  | mouse (client : Pt)
  | touch (touches : List Pt)
deriving DecidableEq, Repr

/-- Client-point extraction of `getCoordinates` lines 152-161: a mouse event
yields its client point; a touch event yields `touches[0]`, or nothing when
the touch list is empty. -/
def clientOf : PointerInput → Option Pt
  | .mouse p => some p
  | .touch [] => none
  | .touch (t :: _) => some t

/-- `getCoordinates` (CanvasEditor lines 147-209): maps a client point to
image-pixel coordinates through the contain-fit layout. Returns `none` when
the canvas or image is absent, the touch list is empty, or (with `clamp`)
the point falls outside the rendered rectangle. -/
def getCoordinates (canvas : Option Rect) (image : Option Img)
    (input : PointerInput) (clamp : Bool) : Option Pt :=
  match canvas, image with
  | some rect, some img =>
    match clientOf input with
    | none => none
    | some client =>
      let box := renderedBox img rect
      let relativeX := client.x - rect.left
      let relativeY := client.y - rect.top
      if clamp ∧ (relativeX < box.offsetX ∨ relativeX > box.offsetX + box.renderedWidth ∨
          relativeY < box.offsetY ∨ relativeY > box.offsetY + box.renderedHeight) then
        none
      else
        let scale := img.naturalWidth / box.renderedWidth
        some { x := (relativeX - box.offsetX) * scale
               y := (relativeY - box.offsetY) * scale }
  | _, _ => none

/-- The brush configuration props of `CanvasEditor`. -/
structure Brush where
  size : ℚ
  color : String
deriving DecidableEq, Repr

/-- One committed stroke segment: the line drawn by `draw` (lines 226-234)
from the previous point to the current one with the active brush. -/
structure Seg where
  p0 : Pt
  p1 : Pt
  brush : Brush
deriving DecidableEq, Repr

/-- `panStartRef` (App.tsx line 442). -/
structure PanAnchor where
  startX : ℚ
  startY : ℚ
  startPan : Pt
deriving DecidableEq, Repr

/-- `pinchStartRef` (App.tsx line 443). -/
structure PinchAnchor where
  dist : ℚ
  mid : Pt
  zoom : ℚ
  pan : Pt
deriving DecidableEq, Repr

/-- Combined mutable state of the gesture code: the App-level viewport state
(`zoom`, `pan`, `isPanning`, `panStartRef`, `pinchStartRef`) together with the
CanvasEditor state (`isDrawing`, `lastPoint`, the persistent raster as the
list of committed segments, the loaded image, the brush props). -/
structure AppSt where
  zoom : ℚ
  pan : Pt
  isPanning : Bool
  panStart : PanAnchor
  pinchStart : Option PinchAnchor
  isDrawing : Bool
  lastPoint : Option Pt
  raster : List Seg
  image : Option Img
  brush : Brush
deriving DecidableEq, Repr

/-- `Math.hypot`, modelled through the rational square root. `Rat.sqrt`
agrees with the real square root whenever the argument is the square of a
rational, which is the case for every concrete touch pair appearing in this
file (axis-aligned differences); no theorem below depends on its value
elsewhere. -/
def hypotQ (dx dy : ℚ) : ℚ := Rat.sqrt (dx * dx + dy * dy)

/-- `handlePanStart` (App.tsx lines 786-790). -/
def handlePanStart (s : AppSt) (clientX clientY : ℚ) : AppSt :=
  { s with panStart := { startX := clientX, startY := clientY, startPan := s.pan }
           isPanning := true }

/-- `handlePanMove` (App.tsx lines 791-794). -/
def handlePanMove (s : AppSt) (clientX clientY : ℚ) : AppSt :=
  if s.isPanning then
    { s with pan := { x := s.panStart.startPan.x + (clientX - s.panStart.startX)
                      y := s.panStart.startPan.y + (clientY - s.panStart.startY) } }
  else s

/-- `handleWheel` (App.tsx lines 767-785): `delta = -deltaY * 0.005`,
`newZoom = max(1, min(3, zoom + delta * zoom))`, and the pan is recomputed
about the container center so the cursor stays anchored. -/
def handleWheel (s : AppSt) (rect : Rect) (client : Pt) (deltaY : ℚ) : AppSt :=
  let mouseX := client.x - rect.left
  let mouseY := client.y - rect.top
  let delta := -deltaY * (1 / 200)
  let newZoom := max 1 (min 3 (s.zoom + delta * s.zoom))
  let scaleFactor := newZoom / s.zoom
  let cx := rect.width / 2
  let cy := rect.height / 2
  { s with zoom := newZoom
           pan := { x := (mouseX - cx) * (1 - scaleFactor) + s.pan.x * scaleFactor
                    y := (mouseY - cy) * (1 - scaleFactor) + s.pan.y * scaleFactor } }

/-- `onTouchStart` (App.tsx lines 799-805): two touches capture a pinch
anchor and stop panning; a single touch clears the pinch anchor and starts a
pan. -/
def onTouchStart (s : AppSt) (touches : List Pt) : AppSt :=
  match touches with
  | [t1, t2] =>
    { s with isPanning := false
             pinchStart := some
               { dist := hypotQ (t1.x - t2.x) (t1.y - t2.y)
                 mid := { x := (t1.x + t2.x) / 2, y := (t1.y + t2.y) / 2 }
                 zoom := s.zoom
                 pan := s.pan } }
  | [t] => handlePanStart { s with pinchStart := none } t.x t.y
  | _ => s

/-- `onTouchMove` (App.tsx lines 806-823): with two touches and a pinch
anchor, rescale the zoom by the distance ratio and recompute the pan from the
world point that was under the starting midpoint; with a single touch while
panning, pan. -/
def onTouchMove (s : AppSt) (rect : Rect) (touches : List Pt) : AppSt :=
  match touches, s.pinchStart with
  | [t1, t2], some anchor =>
    let newDist := hypotQ (t1.x - t2.x) (t1.y - t2.y)
    let scale := newDist / anchor.dist
    let newZoom := max 1 (min 3 (anchor.zoom * scale))
    let startMidOnScreen : Pt := { x := anchor.mid.x - rect.left, y := anchor.mid.y - rect.top }
    let worldPoint : Pt := { x := (startMidOnScreen.x - anchor.pan.x) / anchor.zoom
                             y := (startMidOnScreen.y - anchor.pan.y) / anchor.zoom }
    let newMidOnScreen : Pt := { x := (t1.x + t2.x) / 2 - rect.left
                                 y := (t1.y + t2.y) / 2 - rect.top }
    { s with zoom := newZoom
             pan := { x := newMidOnScreen.x - worldPoint.x * newZoom
                      y := newMidOnScreen.y - worldPoint.y * newZoom } }
  | [t], _ => handlePanMove s t.x t.y
  | _, _ => s

/-- `onTouchEnd` (App.tsx line 824): stop panning; below two remaining
touches drop the pinch anchor; exactly one remaining touch restarts a pan. -/
def onTouchEnd (s : AppSt) (touches : List Pt) : AppSt :=
  let s1 := { s with isPanning := false }
  let s2 := if touches.length < 2 then { s1 with pinchStart := none } else s1
  match touches with
  | [t] => handlePanStart s2 t.x t.y
  | _ => s2

/-- `startDrawing` (CanvasEditor lines 211-216): begin a stroke only when the
clamped mapping succeeds. -/
def startDrawing (s : AppSt) (canvasRect : Rect) (input : PointerInput) : AppSt :=
  match getCoordinates (some canvasRect) s.image input true with
  | none => s
  | some coords => { s with isDrawing := true, lastPoint := some coords }

/-- `draw` (CanvasEditor lines 218-237): while drawing, if the clamped
mapping and the previous point both exist, commit a segment and advance the
previous point; otherwise return with the state unchanged. -/
def draw (s : AppSt) (canvasRect : Rect) (input : PointerInput) : AppSt :=
  if s.isDrawing then
    match getCoordinates (some canvasRect) s.image input true, s.lastPoint with
    | some coords, some lp =>
      { s with raster := s.raster ++ [{ p0 := lp, p1 := coords, brush := s.brush }]
               lastPoint := some coords }
    | _, _ => s
  else s

/-- `stopDrawing` (CanvasEditor lines 239-242). -/
def stopDrawing (s : AppSt) : AppSt :=
  { s with isDrawing := false, lastPoint := none }

/-- The zoom-out button (App.tsx line 1021): `setZoom(z => Math.max(1, z - 0.2))`. -/
def zoomOutClick (s : AppSt) : AppSt := { s with zoom := max 1 (s.zoom - 1/5) }

/-- The zoom-in button (App.tsx line 1023): `setZoom(z => Math.min(3, z + 0.2))`. -/
def zoomInClick (s : AppSt) : AppSt := { s with zoom := min 3 (s.zoom + 1/5) }

/-- `resetView` (App.tsx line 796). -/
def resetView (s : AppSt) : AppSt := { s with zoom := 1, pan := { x := 0, y := 0 } }

/-- `handlePanByControl` (App.tsx line 766). -/
def handlePanByControl (s : AppSt) (dx dy : ℚ) : AppSt :=
  { s with pan := { x := s.pan.x + dx, y := s.pan.y + dy } }

/-- Input events. Touch and mouse events land on the CanvasEditor surface and
bubble to the container, so both components' handlers run (inner first);
events carry the DOM-measured bounding rectangles of the canvas and the
container. -/
inductive Ev where
  | wheel (rect : Rect) (client : Pt) (deltaY : ℚ)
  | touchStart (canvasRect : Rect) (touches : List Pt)
  | touchMove (canvasRect containerRect : Rect) (touches : List Pt)
  | touchEnd (touches : List Pt)
  | mouseDown (canvasRect : Rect) (client : Pt) (button : ℕ)
  | mouseMove (canvasRect : Rect) (client : Pt)
  | mouseUp
  | zoomIn
  | zoomOut
  | resetViewBtn
  | panCtl (dx dy : ℚ)
deriving DecidableEq, Repr

/-- One event step. For touch and mouse events the CanvasEditor handler runs
first and the container handler second (React bubble order on nested
elements); neither calls `stopPropagation`. -/
def step (s : AppSt) : Ev → AppSt
  | .wheel rect client deltaY => handleWheel s rect client deltaY
  | .touchStart canvasRect touches =>
      onTouchStart (startDrawing s canvasRect (.touch touches)) touches
  | .touchMove canvasRect containerRect touches =>
      onTouchMove (draw s canvasRect (.touch touches)) containerRect touches
  | .touchEnd touches => onTouchEnd (stopDrawing s) touches
  | .mouseDown canvasRect client button =>
      if button = 0 then
        handlePanStart (startDrawing s canvasRect (.mouse client)) client.x client.y
      else startDrawing s canvasRect (.mouse client)
  | .mouseMove canvasRect client =>
      handlePanMove (draw s canvasRect (.mouse client)) client.x client.y
  | .mouseUp => { (stopDrawing s) with isPanning := false }
  | .zoomIn => zoomInClick s
  | .zoomOut => zoomOutClick s
  | .resetViewBtn => resetView s
  | .panCtl dx dy => handlePanByControl s dx dy

/-- Run a list of events. -/
def run (s : AppSt) : List Ev → AppSt
  | [] => s
  | e :: es => run (step s e) es

/-- Initial state: `zoom=1`, `pan={0,0}` (App.tsx lines 427-428), the refs at
their initial values (lines 442-443), the editor not drawing with an empty
raster. -/
def initSt (image : Option Img) (brush : Brush) : AppSt :=
  { zoom := 1
    pan := { x := 0, y := 0 }
    isPanning := false
    panStart := { startX := 0, startY := 0, startPan := { x := 0, y := 0 } }
    pinchStart := none
    isDrawing := false
    lastPoint := none
    raster := []
    image := image
    brush := brush }

/-- The CanvasEditor's persistent raster canvas: its pixel size, whether the
bound photo has been drawn onto it (`img.onload` ran, lines 109-125), and the
committed stroke segments. A freshly mounted canvas has the HTML default size
300x150, no photo and no strokes. -/
structure CanvasSurface where
  width : ℚ
  height : ℚ
  photoDrawn : Bool
  raster : List Seg
deriving DecidableEq, Repr

/-- Result of the imperative `toDataURL` handle: either the empty string or
an encoded snapshot of the canvas pixels. The browser's `canvas.toDataURL`
is modelled as a snapshot of the current surface; the `type`/`quality`
arguments affect only the encoding and are omitted. -/
inductive ExportResult where
  | emptyStr
  | snapshot (width height : ℚ) (photoDrawn : Bool) (raster : List Seg)
deriving DecidableEq, Repr

/-- `toDataURL` of the imperative handle (CanvasEditor lines 139-145):
`canvas ? canvas.toDataURL(type, quality) : ''` — the empty string exactly
when the canvas element is not mounted, a pixel snapshot otherwise. -/
def toDataURL (canvas : Option CanvasSurface) : ExportResult :=
  match canvas with
  | some c => .snapshot c.width c.height c.photoDrawn c.raster
  | none => .emptyStr

/-- Modelled from the spec: the inverse of the viewport's visual transform —
the image-space ("world") point displayed at screen point `s` when the
viewport is at `zoom`/`pan` with container center `c`. The transform itself
is applied in the source only as a CSS layer transform (App.tsx line 999),
not as a src function; per spec section 3 `pan` is in screen pixels relative
to the viewport's own center, so a world point `w` appears on screen at
`c + pan + zoom * (w - c)` and this is that map's inverse. -/
def worldUnder (zoom : ℚ) (pan : Pt) (c : Pt) (s : Pt) : Pt :=
  { x := c.x + (s.x - c.x - pan.x) / zoom
    y := c.y + (s.y - c.y - pan.y) / zoom }

/-! ### Helper lemmas -/

theorem hypotQ_horiz (a : ℚ) : hypotQ a 0 = |a| := by
  unfold hypotQ
  rw [show a * a + 0 * 0 = a * a by ring, Rat.sqrt_eq]

theorem run_cons (s : AppSt) (e : Ev) (es : List Ev) :
    run s (e :: es) = run (step s e) es := rfl

theorem run_nil (s : AppSt) : run s [] = s := rfl

theorem one_le_clamp (x : ℚ) : 1 ≤ max 1 (min 3 x) := le_max_left _ _

theorem clamp_le_three (x : ℚ) : max 1 (min 3 x) ≤ 3 :=
  max_le (by norm_num) (min_le_left _ _)

theorem startDrawing_zoom (s : AppSt) (cR : Rect) (i : PointerInput) :
    (startDrawing s cR i).zoom = s.zoom := by
  unfold startDrawing
  cases getCoordinates (some cR) s.image i true <;> rfl

theorem startDrawing_pan (s : AppSt) (cR : Rect) (i : PointerInput) :
    (startDrawing s cR i).pan = s.pan := by
  unfold startDrawing
  cases getCoordinates (some cR) s.image i true <;> rfl

theorem startDrawing_isDrawing (s : AppSt) (cR : Rect) (i : PointerInput)
    (hd : s.isDrawing = true) : (startDrawing s cR i).isDrawing = true := by
  unfold startDrawing
  cases getCoordinates (some cR) s.image i true
  · exact hd
  · rfl

theorem draw_zoom (s : AppSt) (cR : Rect) (i : PointerInput) :
    (draw s cR i).zoom = s.zoom := by
  unfold draw
  split
  · split <;> rfl
  · rfl

theorem draw_pan (s : AppSt) (cR : Rect) (i : PointerInput) :
    (draw s cR i).pan = s.pan := by
  unfold draw
  split
  · split <;> rfl
  · rfl

/-- `draw` with a null clamped mapping returns with the state unchanged: in
the source, `if (!coords || !lastPoint.current) return;` neither commits a
segment nor clears `lastPoint.current`. -/
theorem draw_none (s : AppSt) (cR : Rect) (i : PointerInput)
    (h : getCoordinates (some cR) s.image i true = none) : draw s cR i = s := by
  unfold draw
  rw [h]
  split
  · rfl
  · rfl

/-- `draw` while drawing, with a mapped point and a previous point, commits
exactly one segment from the previous to the current point and advances
`lastPoint`. -/
theorem draw_commit (s : AppSt) (cR : Rect) (i : PointerInput) (c lp : Pt)
    (hd : s.isDrawing = true) (hc : getCoordinates (some cR) s.image i true = some c)
    (hl : s.lastPoint = some lp) :
    draw s cR i = { s with raster := s.raster ++ [{ p0 := lp, p1 := c, brush := s.brush }]
                           lastPoint := some c } := by
  unfold draw
  rw [hd, hc, hl]
  rfl

theorem handlePanStart_zoom (s : AppSt) (a b : ℚ) : (handlePanStart s a b).zoom = s.zoom := rfl

theorem handlePanMove_zoom (s : AppSt) (a b : ℚ) : (handlePanMove s a b).zoom = s.zoom := by
  unfold handlePanMove
  split <;> rfl

theorem handlePanMove_raster (s : AppSt) (a b : ℚ) :
    (handlePanMove s a b).raster = s.raster := by
  unfold handlePanMove
  split <;> rfl

theorem onTouchStart_zoom (s : AppSt) (ts : List Pt) : (onTouchStart s ts).zoom = s.zoom := by
  unfold onTouchStart handlePanStart
  rcases ts with _ | ⟨a, _ | ⟨b, _ | ⟨c, tl⟩⟩⟩ <;> rfl

theorem onTouchEnd_zoom (s : AppSt) (ts : List Pt) : (onTouchEnd s ts).zoom = s.zoom := by
  unfold onTouchEnd handlePanStart
  rcases ts with _ | ⟨a, _ | ⟨b, _ | ⟨c, tl⟩⟩⟩ <;> split <;> rfl

theorem onTouchMove_raster (s : AppSt) (r : Rect) (ts : List Pt) :
    (onTouchMove s r ts).raster = s.raster := by
  unfold onTouchMove
  rcases ts with _ | ⟨a, _ | ⟨b, _ | ⟨c, tl⟩⟩⟩ <;> cases s.pinchStart <;>
    first
      | rfl
      | rw [handlePanMove_raster]

theorem onTouchMove_zoom_bounds (s : AppSt) (r : Rect) (ts : List Pt)
    (h1 : 1 ≤ s.zoom) (h3 : s.zoom ≤ 3) :
    1 ≤ (onTouchMove s r ts).zoom ∧ (onTouchMove s r ts).zoom ≤ 3 := by
  unfold onTouchMove
  rcases ts with _ | ⟨a, _ | ⟨b, _ | ⟨c, tl⟩⟩⟩
  · exact ⟨h1, h3⟩
  · rw [handlePanMove_zoom]; exact ⟨h1, h3⟩
  · cases s.pinchStart
    · exact ⟨h1, h3⟩
    · exact ⟨one_le_clamp _, clamp_le_three _⟩
  · exact ⟨h1, h3⟩

set_option maxHeartbeats 1000000 in
/-- Evaluation of the pinch arm of `onTouchMove`: with two touches and a
pinch anchor present, the state is updated with the clamped rescaled zoom and
the world-point-anchored pan. -/
theorem onTouchMove_pinch (s : AppSt) (r : Rect) (t1 t2 : Pt) (a : PinchAnchor)
    (hp : s.pinchStart = some a) :
    onTouchMove s r [t1, t2]
      = { s with
          zoom := max 1 (min 3 (a.zoom * (hypotQ (t1.x - t2.x) (t1.y - t2.y) / a.dist)))
          pan := { x := (t1.x + t2.x) / 2 - r.left
                     - (a.mid.x - r.left - a.pan.x) / a.zoom
                       * max 1 (min 3 (a.zoom * (hypotQ (t1.x - t2.x) (t1.y - t2.y) / a.dist)))
                   y := (t1.y + t2.y) / 2 - r.top
                     - (a.mid.y - r.top - a.pan.y) / a.zoom
                       * max 1 (min 3 (a.zoom * (hypotQ (t1.x - t2.x) (t1.y - t2.y) / a.dist))) } } := by
  simp only [onTouchMove, hp]

theorem step_zoom_bounds (s : AppSt) (e : Ev) (h1 : 1 ≤ s.zoom) (h3 : s.zoom ≤ 3) :
    1 ≤ (step s e).zoom ∧ (step s e).zoom ≤ 3 := by
  cases e with
  | wheel rect client deltaY => exact ⟨one_le_clamp _, clamp_le_three _⟩
  | touchStart cR ts =>
      simp only [step, onTouchStart_zoom, startDrawing_zoom]
      exact ⟨h1, h3⟩
  | touchMove cR con ts =>
      refine onTouchMove_zoom_bounds _ _ _ ?_ ?_ <;> rw [draw_zoom]
      · exact h1
      · exact h3
  | touchEnd ts =>
      simp only [step, onTouchEnd_zoom]
      exact ⟨h1, h3⟩
  | mouseDown cR client button =>
      simp only [step]
      split <;> simp only [handlePanStart_zoom, startDrawing_zoom] <;> exact ⟨h1, h3⟩
  | mouseMove cR client =>
      simp only [step, handlePanMove_zoom, draw_zoom]
      exact ⟨h1, h3⟩
  | mouseUp => exact ⟨h1, h3⟩
  | zoomIn =>
      refine ⟨le_min (by norm_num) (by linarith), min_le_left _ _⟩
  | zoomOut =>
      exact ⟨le_max_left _ _, max_le (by norm_num) (by linarith)⟩
  | resetViewBtn => constructor <;> norm_num [step, resetView]
  | panCtl dx dy => exact ⟨h1, h3⟩

theorem run_zoom_bounds (evs : List Ev) : ∀ s : AppSt, 1 ≤ s.zoom → s.zoom ≤ 3 →
    1 ≤ (run s evs).zoom ∧ (run s evs).zoom ≤ 3 := by
  induction evs with
  | nil => exact fun s h1 h3 => ⟨h1, h3⟩
  | cons e es ih =>
      intro s h1 h3
      have h := step_zoom_bounds s e h1 h3
      exact ih (step s e) h.1 h.2

/-! ### Claim theorems -/

/-- C1: for every sequence of events (wheel zooms, pinch moves, presses of
the zoom-in and zoom-out buttons, and all other gesture events) applied from the initial state
with `zoom = 1`, the zoom value lies in `[1, 3]` after every step: every
prefix of every event sequence is itself an event sequence, and the bound
holds for the state each one reaches. -/
theorem zoom_always_clamped (image : Option Img) (brush : Brush) (evs : List Ev) :
    1 ≤ (run (initSt image brush) evs).zoom ∧ (run (initSt image brush) evs).zoom ≤ 3 :=
  run_zoom_bounds evs (initSt image brush) (by norm_num [initSt]) (by norm_num [initSt])

/-- C10: a wheel event whose effective delta (`delta = -deltaY * 0.005`)
pushes past a clamp boundary the zoom already sits at — `zoom = 3` with
positive delta (`deltaY < 0`), or `zoom = 1` with negative delta
(`deltaY > 0`) — leaves the whole viewport state unchanged: the clamped new
zoom equals the old one, so the scale factor is 1 and the pan formula is the
identity. -/
theorem wheel_identity_at_clamp_bound (s : AppSt) (rect : Rect) (client : Pt) (deltaY : ℚ)
    (h : (s.zoom = 3 ∧ 0 < -deltaY * (1/200)) ∨ (s.zoom = 1 ∧ -deltaY * (1/200) < 0)) :
    step s (.wheel rect client deltaY) = s := by
  obtain ⟨z, p, ip, ps, pin, idr, lp, r, im, b⟩ := s
  obtain ⟨px, py⟩ := p
  simp only [step, handleWheel] at *
  rcases h with ⟨h3, hd⟩ | ⟨h1, hd⟩
  · subst h3
    have hmin : min 3 (3 + -deltaY * (1/200) * 3) = 3 := min_eq_left (by nlinarith)
    have hmax : max 1 (min 3 (3 + -deltaY * (1/200) * 3)) = 3 := by
      rw [hmin]; exact max_eq_right (by norm_num)
    simp only [AppSt.mk.injEq, Pt.mk.injEq, hmax]
    norm_num
  · subst h1
    have hmin : min 3 (1 + -deltaY * (1/200) * 1) = 1 + -deltaY * (1/200) * 1 :=
      min_eq_right (by nlinarith)
    have hmax : max 1 (min 3 (1 + -deltaY * (1/200) * 1)) = 1 := by
      rw [hmin]; exact max_eq_left (by nlinarith)
    simp only [AppSt.mk.injEq, Pt.mk.injEq, hmax]
    norm_num

/-- Witness for C10: a concrete state at the upper clamp bound with a
zoom-in wheel event is left exactly unchanged. -/
theorem wheel_identity_at_clamp_bound_witness :
    step { zoom := 3, pan := ⟨7, -4⟩, isPanning := false, panStart := ⟨0, 0, ⟨0, 0⟩⟩
           pinchStart := none, isDrawing := false, lastPoint := none, raster := []
           image := none, brush := ⟨10, "#ef4444"⟩ }
        (.wheel ⟨0, 0, 400, 300⟩ ⟨30, 40⟩ (-100))
      = { zoom := 3, pan := ⟨7, -4⟩, isPanning := false, panStart := ⟨0, 0, ⟨0, 0⟩⟩
          pinchStart := none, isDrawing := false, lastPoint := none, raster := []
          image := none, brush := ⟨10, "#ef4444"⟩ } :=
  wheel_identity_at_clamp_bound _ _ _ _ (Or.inl ⟨rfl, by norm_num⟩)

/-- C2: a wheel-zoom at cursor `client` sets
`newZoom = clamp(zoom + delta*zoom, 1, 3)` with `delta = -deltaY * 0.005`,
sets `pan' = (cursor - c) * (1 - scaleFactor) + pan * scaleFactor` about the
container center `c`, and keeps the image-space point under the cursor
invariant — the equality is exact in rational arithmetic, hence a fortiori
within the spec's `1e-6` tolerance. -/
theorem wheel_zoom_anchor_invariance (s : AppSt) (rect : Rect) (client : Pt)
    (deltaY : ℚ) (hz : 1 ≤ s.zoom) :
    (step s (.wheel rect client deltaY)).zoom
        = max 1 (min 3 (s.zoom + -deltaY * (1/200) * s.zoom)) ∧
    (step s (.wheel rect client deltaY)).pan
        = { x := (client.x - rect.left - rect.width / 2)
                  * (1 - (step s (.wheel rect client deltaY)).zoom / s.zoom)
                + s.pan.x * ((step s (.wheel rect client deltaY)).zoom / s.zoom)
            y := (client.y - rect.top - rect.height / 2)
                  * (1 - (step s (.wheel rect client deltaY)).zoom / s.zoom)
                + s.pan.y * ((step s (.wheel rect client deltaY)).zoom / s.zoom) } ∧
    worldUnder (step s (.wheel rect client deltaY)).zoom
        (step s (.wheel rect client deltaY)).pan
        ⟨rect.width / 2, rect.height / 2⟩ ⟨client.x - rect.left, client.y - rect.top⟩
      = worldUnder s.zoom s.pan
        ⟨rect.width / 2, rect.height / 2⟩ ⟨client.x - rect.left, client.y - rect.top⟩ := by
  have hz0 : s.zoom ≠ 0 := by positivity
  have hz' : (1 : ℚ) ≤ max 1 (min 3 (s.zoom + -deltaY * (1/200) * s.zoom)) := le_max_left _ _
  have hz'0 : max 1 (min 3 (s.zoom + -deltaY * (1/200) * s.zoom)) ≠ 0 := by positivity
  refine ⟨rfl, ?_, ?_⟩
  · simp only [step, handleWheel, Pt.mk.injEq]
  · simp only [step, handleWheel, worldUnder, Pt.mk.injEq]
    constructor <;> (field_simp; try ring)

/-- Witness for C2, at a concrete state with `zoom = 1` and a concrete wheel
event. -/
theorem wheel_zoom_anchor_invariance_witness :
    1 ≤ (initSt none ⟨10, "#ef4444"⟩).zoom ∧
    worldUnder (step (initSt none ⟨10, "#ef4444"⟩) (.wheel ⟨0, 0, 100, 100⟩ ⟨30, 40⟩ (-200))).zoom
        (step (initSt none ⟨10, "#ef4444"⟩) (.wheel ⟨0, 0, 100, 100⟩ ⟨30, 40⟩ (-200))).pan
        ⟨50, 50⟩ ⟨30, 40⟩
      = worldUnder (initSt none ⟨10, "#ef4444"⟩).zoom (initSt none ⟨10, "#ef4444"⟩).pan
        ⟨50, 50⟩ ⟨30, 40⟩ :=
  ⟨by norm_num [initSt], by
    have h := (wheel_zoom_anchor_invariance (initSt none ⟨10, "#ef4444"⟩) ⟨0, 0, 100, 100⟩
      ⟨30, 40⟩ (-200) (by norm_num [initSt])).2.2
    norm_num at h
    exact h⟩

/-- C3 counterexample: a pinch whose anchor has `startDistance = 100`,
`startZoom = 1`, `startPan = {0,0}` and midpoint `(100,100)` over a container
at the origin, with the touches moved to `newDistance = 200` around the same
midpoint, produces `newZoom = 2` — but `newPan = (-100,-100)`, not the
unchanged `startPan = (0,0)` the claim states: the code's pan formula gives
`newPan = -startMidOnScreen` in this configuration. -/
theorem pinch_same_midpoint_moves_pan :
    (onTouchMove
        { zoom := 1, pan := ⟨0, 0⟩, isPanning := false, panStart := ⟨0, 0, ⟨0, 0⟩⟩
          pinchStart := some ⟨100, ⟨100, 100⟩, 1, ⟨0, 0⟩⟩, isDrawing := false
          lastPoint := none, raster := [], image := none, brush := ⟨10, "#ef4444"⟩ }
        ⟨0, 0, 400, 300⟩ [⟨0, 100⟩, ⟨200, 100⟩]).zoom = 2 ∧
    (onTouchMove
        { zoom := 1, pan := ⟨0, 0⟩, isPanning := false, panStart := ⟨0, 0, ⟨0, 0⟩⟩
          pinchStart := some ⟨100, ⟨100, 100⟩, 1, ⟨0, 0⟩⟩, isDrawing := false
          lastPoint := none, raster := [], image := none, brush := ⟨10, "#ef4444"⟩ }
        ⟨0, 0, 400, 300⟩ [⟨0, 100⟩, ⟨200, 100⟩]).pan = ⟨-100, -100⟩ ∧
    ((⟨-100, -100⟩ : Pt) ≠ ⟨0, 0⟩) := by
  rw [onTouchMove_pinch _ _ _ _ _ rfl]
  refine ⟨?_, ?_, by norm_num [Pt.mk.injEq]⟩ <;>
    norm_num [hypotQ_horiz, min_def, max_def, Pt.mk.injEq]

/-- C3 corrected: with `startDistance = 100`, `startZoom = 1`,
`startPan = {0,0}` and touches moved to distance 200 around the unchanged
midpoint `m`, the pinch update yields `newZoom = 2` and
`newPan = -(m - rect.topLeft)` — i.e. minus the container-relative midpoint —
which equals the original `startPan = {0,0}` only when the midpoint sits at
the container's top-left corner. -/
theorem pinch_same_midpoint_amended (s : AppSt) (rect : Rect) (m t1 t2 : Pt)
    (hpinch : s.pinchStart = some { dist := 100, mid := m, zoom := 1, pan := ⟨0, 0⟩ })
    (hdist : hypotQ (t1.x - t2.x) (t1.y - t2.y) = 200)
    (hmx : (t1.x + t2.x) / 2 = m.x) (hmy : (t1.y + t2.y) / 2 = m.y) :
    (onTouchMove s rect [t1, t2]).zoom = 2 ∧
    (onTouchMove s rect [t1, t2]).pan = ⟨-(m.x - rect.left), -(m.y - rect.top)⟩ := by
  have hclamp : max 1 (min 3 ((1 : ℚ) * (200 / 100))) = 2 := by norm_num [min_def, max_def]
  rw [onTouchMove_pinch s rect t1 t2 _ hpinch]
  dsimp only
  rw [hdist, hmx, hmy, hclamp]
  refine ⟨rfl, ?_⟩
  simp only [Pt.mk.injEq]
  constructor <;> ring

/-- Witness for the corrected C3, at the concrete configuration of the
counterexample. -/
theorem pinch_same_midpoint_amended_witness :
    (onTouchMove
        { zoom := 1, pan := ⟨0, 0⟩, isPanning := false, panStart := ⟨0, 0, ⟨0, 0⟩⟩
          pinchStart := some ⟨100, ⟨100, 100⟩, 1, ⟨0, 0⟩⟩, isDrawing := false
          lastPoint := none, raster := [], image := none, brush := ⟨10, "#ef4444"⟩ }
        ⟨10, 20, 400, 300⟩ [⟨0, 100⟩, ⟨200, 100⟩]).zoom = 2 ∧
    (onTouchMove
        { zoom := 1, pan := ⟨0, 0⟩, isPanning := false, panStart := ⟨0, 0, ⟨0, 0⟩⟩
          pinchStart := some ⟨100, ⟨100, 100⟩, 1, ⟨0, 0⟩⟩, isDrawing := false
          lastPoint := none, raster := [], image := none, brush := ⟨10, "#ef4444"⟩ }
        ⟨10, 20, 400, 300⟩ [⟨0, 100⟩, ⟨200, 100⟩]).pan
      = ⟨-((100 : ℚ) - 10), -((100 : ℚ) - 20)⟩ :=
  pinch_same_midpoint_amended _ ⟨10, 20, 400, 300⟩ ⟨100, 100⟩ ⟨0, 100⟩ ⟨200, 100⟩
    rfl (by norm_num [hypotQ_horiz]) (by norm_num) (by norm_num)

/-- With positive container and image sizes the contain-fit rectangle has a
positive rendered width, and multiplying the rendered width (resp. rendered
height) by the shared scale `naturalWidth / renderedWidth` recovers the
image's natural width (resp. natural height) exactly: the aspect ratio is
preserved. -/
theorem renderedBox_facts (img : Img) (rect : Rect)
    (hW : 0 < img.naturalWidth) (hH : 0 < img.naturalHeight)
    (hcw : 0 < rect.width) (hch : 0 < rect.height) :
    0 < (renderedBox img rect).renderedWidth ∧
    (renderedBox img rect).renderedWidth
        * (img.naturalWidth / (renderedBox img rect).renderedWidth) = img.naturalWidth ∧
    (renderedBox img rect).renderedHeight
        * (img.naturalWidth / (renderedBox img rect).renderedWidth) = img.naturalHeight := by
  have haspect : 0 < img.naturalWidth / img.naturalHeight := div_pos hW hH
  have hWne := hW.ne'
  have hHne := hH.ne'
  have hcwne := hcw.ne'
  have hchne := hch.ne'
  unfold renderedBox
  dsimp only
  split
  · dsimp only
    refine ⟨hcw, ?_, ?_⟩ <;> (field_simp; try ring)
  · dsimp only
    refine ⟨mul_pos hch haspect, ?_, ?_⟩ <;> (field_simp; try ring)

/-- C4: with positive container and image dimensions, the clamped coordinate
mapping never yields a point outside `[0, naturalWidth] x [0, naturalHeight]`;
and for a screen point outside the letterboxed rectangle (in particular one
inside the container but within a letterbox margin) the clamped mapping
returns `none` while the unclamped mapping still returns a (possibly
negative) image coordinate. -/
theorem getCoordinates_clamp_bounds (img : Img) (rect : Rect) (p : Pt)
    (hW : 0 < img.naturalWidth) (hH : 0 < img.naturalHeight)
    (hcw : 0 < rect.width) (hch : 0 < rect.height) :
    (∀ q, getCoordinates (some rect) (some img) (.mouse p) true = some q →
        0 ≤ q.x ∧ q.x ≤ img.naturalWidth ∧ 0 ≤ q.y ∧ q.y ≤ img.naturalHeight) ∧
    ((p.x - rect.left < (renderedBox img rect).offsetX ∨
      p.x - rect.left > (renderedBox img rect).offsetX + (renderedBox img rect).renderedWidth ∨
      p.y - rect.top < (renderedBox img rect).offsetY ∨
      p.y - rect.top > (renderedBox img rect).offsetY + (renderedBox img rect).renderedHeight) →
      getCoordinates (some rect) (some img) (.mouse p) true = none ∧
      ∃ q, getCoordinates (some rect) (some img) (.mouse p) false = some q) := by
  obtain ⟨hwpos, hmulW, hmulH⟩ := renderedBox_facts img rect hW hH hcw hch
  have hscale : 0 ≤ img.naturalWidth / (renderedBox img rect).renderedWidth :=
    div_nonneg hW.le hwpos.le
  constructor
  · intro q hq
    simp only [getCoordinates, clientOf] at hq
    split at hq
    · exact absurd hq (by simp)
    · rename_i hcond
      push_neg at hcond
      obtain ⟨hA, hB, hC, hD⟩ := hcond trivial
      rw [Option.some.injEq] at hq
      subst hq
      dsimp only
      refine ⟨mul_nonneg (by linarith) hscale, ?_,
        mul_nonneg (by linarith) hscale, ?_⟩
      · calc (p.x - rect.left - (renderedBox img rect).offsetX)
              * (img.naturalWidth / (renderedBox img rect).renderedWidth)
            ≤ (renderedBox img rect).renderedWidth
              * (img.naturalWidth / (renderedBox img rect).renderedWidth) :=
              mul_le_mul_of_nonneg_right (by linarith) hscale
          _ = img.naturalWidth := hmulW
      · calc (p.y - rect.top - (renderedBox img rect).offsetY)
              * (img.naturalWidth / (renderedBox img rect).renderedWidth)
            ≤ (renderedBox img rect).renderedHeight
              * (img.naturalWidth / (renderedBox img rect).renderedWidth) :=
              mul_le_mul_of_nonneg_right (by linarith) hscale
          _ = img.naturalHeight := hmulH
  · intro hout
    constructor
    · simp only [getCoordinates, clientOf]
      rw [if_pos ⟨trivial, hout⟩]
    · refine ⟨⟨(p.x - rect.left - (renderedBox img rect).offsetX)
          * (img.naturalWidth / (renderedBox img rect).renderedWidth),
        (p.y - rect.top - (renderedBox img rect).offsetY)
          * (img.naturalWidth / (renderedBox img rect).renderedWidth)⟩, ?_⟩
      simp only [getCoordinates, clientOf]
      rw [if_neg (by simp)]

/-- Witness for C4, at the spec's own example: a 1000x500 image in an 800x800
container is rendered 800x400 with a 200-pixel letterbox at the top; the
point `(100, 50)` lies in the margin, maps to `none` with clamping and to a
point without clamping. -/
theorem getCoordinates_clamp_bounds_witness :
    getCoordinates (some ⟨0, 0, 800, 800⟩) (some ⟨1000, 500⟩) (.mouse ⟨100, 50⟩) true = none ∧
    ∃ q, getCoordinates (some ⟨0, 0, 800, 800⟩) (some ⟨1000, 500⟩) (.mouse ⟨100, 50⟩) false
      = some q :=
  (getCoordinates_clamp_bounds ⟨1000, 500⟩ ⟨0, 0, 800, 800⟩ ⟨100, 50⟩
      (by norm_num) (by norm_num) (by norm_num) (by norm_num)).2
    (by right; right; left; norm_num [renderedBox])

/-- C5 counterexample: with a zero-width container (height 100) and a 200x100
image, the client point at the rendered-box corner passes the clamp check and
`getCoordinates` returns a point instead of `null` — the scale
`naturalWidth / renderedWidth` is a division by zero (non-finite coordinates
in JS; 0 in the rational model). The code checks only `!canvas || !image`,
never the sizes. -/
theorem zero_size_returns_point :
    getCoordinates (some ⟨0, 0, 0, 100⟩) (some ⟨200, 100⟩) (.mouse ⟨0, 50⟩) true ≠ none := by
  have h : getCoordinates (some ⟨0, 0, 0, 100⟩) (some ⟨200, 100⟩) (.mouse ⟨0, 50⟩) true
      = some ⟨0, 0⟩ := by
    norm_num [getCoordinates, renderedBox, clientOf]
  rw [h]
  simp

/-- C5 corrected: the mapper has no zero-size guard. It returns `none` only
when the canvas or image is absent, the touch list is empty, or clamping
rejects the point; with a zero-width container of positive height the
rendered width is 0, yet the point at the rendered-box corner passes the
clamp check and a (non-null) point computed with the zero denominator is
returned. -/
theorem zero_width_no_guard (l t h nw nh : ℚ) (hnw : 0 < nw) (hnh : 0 < nh) (hh : 0 < h) :
    (renderedBox ⟨nw, nh⟩ ⟨l, t, 0, h⟩).renderedWidth = 0 ∧
    getCoordinates (some ⟨l, t, 0, h⟩) (some ⟨nw, nh⟩) (.mouse ⟨l, t + h / 2⟩) true ≠ none := by
  have hb : (nw / nh : ℚ) > 0 / h := by
    rw [zero_div]; exact div_pos hnw hnh
  have hbox : renderedBox ⟨nw, nh⟩ ⟨l, t, 0, h⟩ = ⟨0, h / 2, 0, 0⟩ := by
    unfold renderedBox
    dsimp only
    rw [if_pos hb]
    simp [FitBox.mk.injEq, zero_div]
  refine ⟨by rw [hbox], ?_⟩
  have hsome : getCoordinates (some ⟨l, t, 0, h⟩) (some ⟨nw, nh⟩) (.mouse ⟨l, t + h / 2⟩) true
      = some ⟨0, 0⟩ := by
    simp only [getCoordinates, clientOf, hbox]
    rw [if_neg (by rintro ⟨-, hc | hc | hc | hc⟩ <;> linarith)]
    simp only [Option.some.injEq, Pt.mk.injEq]
    constructor <;> ring
  rw [hsome]
  simp

/-- Witness for the corrected C5, at the concrete zero-width container of the
counterexample. -/
theorem zero_width_no_guard_witness :
    (renderedBox ⟨200, 100⟩ ⟨0, 0, 0, 100⟩).renderedWidth = 0 ∧
    getCoordinates (some ⟨0, 0, 0, 100⟩) (some ⟨200, 100⟩) (.mouse ⟨0, 0 + 100 / 2⟩) true
      ≠ none :=
  zero_width_no_guard 0 0 100 200 100 (by norm_num) (by norm_num) (by norm_num)

/-- C6 counterexample: while Drawing at last point `(10,10)`, a pointer-move
whose clamped mapping is `null` (client `(-5,50)`, left of the image) leaves
`lastPoint` still set to `(10,10)` — the source's `draw` returns without
clearing the previous-point reference — so the next in-bounds move at
`(50,50)` commits a segment connecting `(10,10)` to `(50,50)`, the very
segment the claim says must not be committed. -/
theorem draw_retains_prev_point :
    (run (initSt (some ⟨100, 100⟩) ⟨10, "#ef4444"⟩)
      [.mouseDown ⟨0, 0, 100, 100⟩ ⟨10, 10⟩ 0,
       .mouseMove ⟨0, 0, 100, 100⟩ ⟨-5, 50⟩]).lastPoint = some ⟨10, 10⟩ ∧
    (run (initSt (some ⟨100, 100⟩) ⟨10, "#ef4444"⟩)
      [.mouseDown ⟨0, 0, 100, 100⟩ ⟨10, 10⟩ 0,
       .mouseMove ⟨0, 0, 100, 100⟩ ⟨-5, 50⟩,
       .mouseMove ⟨0, 0, 100, 100⟩ ⟨50, 50⟩]).raster
      = [⟨⟨10, 10⟩, ⟨50, 50⟩, ⟨10, "#ef4444"⟩⟩] := by
  constructor <;>
    norm_num [run, step, initSt, startDrawing, draw, stopDrawing, handlePanStart,
      handlePanMove, getCoordinates, renderedBox, clientOf]

/-- C6 corrected: while Drawing, a pointer-move whose clamped mapping returns
`null` commits no segment and raises no error, but the previous-point
reference is retained rather than cleared: the state is entirely unchanged,
and therefore the first in-bounds move after the pointer re-enters commits a
segment connecting to the point recorded before the pointer left. -/
theorem draw_null_mapping_state (s : AppSt) (cR : Rect) (inp : PointerInput)
    (hd : s.isDrawing = true) :
    (getCoordinates (some cR) s.image inp true = none → draw s cR inp = s) ∧
    (∀ c lp, getCoordinates (some cR) s.image inp true = some c → s.lastPoint = some lp →
      draw s cR inp = { s with
        raster := s.raster ++ [{ p0 := lp, p1 := c, brush := s.brush }]
        lastPoint := some c }) := by
  constructor
  · intro h
    exact draw_none s cR inp h
  · intro c lp hc hl
    exact draw_commit s cR inp c lp hd hc hl

/-- A mid-stroke state: one finger down at `(10,10)` on a 100x100 image,
drawing (and, per the source, panning too). This is the state the machine
reaches from the initial state after a single-touch or mouse press at
`(10,10)`. -/
def midStrokeState : AppSt :=
  { zoom := 1, pan := ⟨0, 0⟩, isPanning := true, panStart := ⟨10, 10, ⟨0, 0⟩⟩
    pinchStart := none, isDrawing := true, lastPoint := some ⟨10, 10⟩, raster := []
    image := some ⟨100, 100⟩, brush := ⟨10, "#ef4444"⟩ }

/-- The state after a second finger lands at `(30,10)` while in
`midStrokeState`: a pinch anchor (distance 20, midpoint `(20,10)`) is
captured, panning stops, drawing stays active. -/
def twoFingerState : AppSt :=
  { zoom := 1, pan := ⟨0, 0⟩, isPanning := false, panStart := ⟨10, 10, ⟨0, 0⟩⟩
    pinchStart := some ⟨20, ⟨20, 10⟩, 1, ⟨0, 0⟩⟩, isDrawing := true
    lastPoint := some ⟨10, 10⟩, raster := []
    image := some ⟨100, 100⟩, brush := ⟨10, "#ef4444"⟩ }

/-- Witness for the corrected C6: at the concrete drawing state, the
out-of-image move is the identity and the next in-bounds move commits the
connecting segment. -/
theorem draw_null_mapping_state_witness :
    draw midStrokeState ⟨0, 0, 100, 100⟩ (.mouse ⟨-5, 50⟩) = midStrokeState ∧
    draw midStrokeState ⟨0, 0, 100, 100⟩ (.mouse ⟨50, 50⟩)
      = { midStrokeState with
          raster := midStrokeState.raster
            ++ [{ p0 := ⟨10, 10⟩, p1 := ⟨50, 50⟩, brush := midStrokeState.brush }]
          lastPoint := some ⟨50, 50⟩ } :=
  ⟨(draw_null_mapping_state midStrokeState ⟨0, 0, 100, 100⟩ (.mouse ⟨-5, 50⟩) rfl).1
      (by norm_num [getCoordinates, renderedBox, clientOf, midStrokeState]),
    (draw_null_mapping_state midStrokeState ⟨0, 0, 100, 100⟩ (.mouse ⟨50, 50⟩) rfl).2
      ⟨50, 50⟩ ⟨10, 10⟩
      (by norm_num [getCoordinates, renderedBox, clientOf, midStrokeState]) rfl⟩

/-- C7 counterexample: from the initial state with a 100x100 image, touch
down with one finger at `(10,10)` (Drawing begins — and Panning begins too),
land a second finger at `(30,10)` (a PinchAnchor is captured, so Pinching is
active while `isDrawing` is still true), then move both fingers. The
two-finger move both pinch-zooms and commits a stroke segment following the
first finger: a segment is committed after the second touch appeared and
before the touch count dropped below two, and Drawing and Pinching are
active at the same instant. -/
theorem drawing_and_pinching_simultaneously :
    (run (initSt (some ⟨100, 100⟩) ⟨10, "#ef4444"⟩)
        [.touchStart ⟨0, 0, 100, 100⟩ [⟨10, 10⟩],
         .touchStart ⟨0, 0, 100, 100⟩ [⟨10, 10⟩, ⟨30, 10⟩]]).raster = [] ∧
    (run (initSt (some ⟨100, 100⟩) ⟨10, "#ef4444"⟩)
        [.touchStart ⟨0, 0, 100, 100⟩ [⟨10, 10⟩],
         .touchStart ⟨0, 0, 100, 100⟩ [⟨10, 10⟩, ⟨30, 10⟩]]).isDrawing = true ∧
    (run (initSt (some ⟨100, 100⟩) ⟨10, "#ef4444"⟩)
        [.touchStart ⟨0, 0, 100, 100⟩ [⟨10, 10⟩],
         .touchStart ⟨0, 0, 100, 100⟩ [⟨10, 10⟩, ⟨30, 10⟩]]).pinchStart ≠ none ∧
    (run (initSt (some ⟨100, 100⟩) ⟨10, "#ef4444"⟩)
        [.touchStart ⟨0, 0, 100, 100⟩ [⟨10, 10⟩],
         .touchStart ⟨0, 0, 100, 100⟩ [⟨10, 10⟩, ⟨30, 10⟩],
         .touchMove ⟨0, 0, 100, 100⟩ ⟨0, 0, 100, 100⟩ [⟨50, 10⟩, ⟨70, 10⟩]]).raster
      = [⟨⟨10, 10⟩, ⟨50, 10⟩, ⟨10, "#ef4444"⟩⟩] ∧
    (run (initSt (some ⟨100, 100⟩) ⟨10, "#ef4444"⟩)
        [.touchStart ⟨0, 0, 100, 100⟩ [⟨10, 10⟩],
         .touchStart ⟨0, 0, 100, 100⟩ [⟨10, 10⟩, ⟨30, 10⟩],
         .touchMove ⟨0, 0, 100, 100⟩ ⟨0, 0, 100, 100⟩ [⟨50, 10⟩, ⟨70, 10⟩]]).isDrawing
      = true := by
  have h1 : step (initSt (some ⟨100, 100⟩) ⟨10, "#ef4444"⟩)
      (.touchStart ⟨0, 0, 100, 100⟩ [⟨10, 10⟩]) = midStrokeState := by
    norm_num [step, initSt, startDrawing, onTouchStart, handlePanStart, getCoordinates,
      renderedBox, clientOf, midStrokeState]
  have h2 : step midStrokeState (.touchStart ⟨0, 0, 100, 100⟩ [⟨10, 10⟩, ⟨30, 10⟩])
      = twoFingerState := by
    norm_num [step, startDrawing, onTouchStart, getCoordinates, renderedBox, clientOf,
      hypotQ_horiz, midStrokeState, twoFingerState]
  have hdraw : draw twoFingerState ⟨0, 0, 100, 100⟩ (.touch [⟨50, 10⟩, ⟨70, 10⟩])
      = { twoFingerState with
          lastPoint := some ⟨50, 10⟩
          raster := [⟨⟨10, 10⟩, ⟨50, 10⟩, ⟨10, "#ef4444"⟩⟩] } := by
    norm_num [draw, getCoordinates, renderedBox, clientOf, twoFingerState]
  have h3 : step twoFingerState
      (.touchMove ⟨0, 0, 100, 100⟩ ⟨0, 0, 100, 100⟩ [⟨50, 10⟩, ⟨70, 10⟩])
      = { twoFingerState with
          pan := ⟨40, 0⟩
          lastPoint := some ⟨50, 10⟩
          raster := [⟨⟨10, 10⟩, ⟨50, 10⟩, ⟨10, "#ef4444"⟩⟩] } := by
    show onTouchMove (draw _ _ _) _ _ = _
    rw [hdraw, onTouchMove_pinch _ _ _ _ _ rfl]
    dsimp only [twoFingerState]
    norm_num [hypotQ_horiz, min_def, max_def, AppSt.mk.injEq, Pt.mk.injEq]
  refine ⟨?_, ?_, ?_, ?_, ?_⟩ <;>
    simp only [run_cons, run_nil, h1, h2, h3] <;> simp [twoFingerState]

/-- C7 corrected: a second touch landing while Drawing captures a PinchAnchor
(Pinching becomes active) and clears `isPanning`, but does not exit Drawing:
`isDrawing` remains true, and every subsequent two-touch move whose clamped
mapping of the first touch succeeds commits a further stroke segment while
simultaneously pinch-zooming — Drawing and Pinching are not mutually
exclusive, and strokes continue while two touches are down. -/
theorem second_touch_pinches_but_keeps_drawing (s : AppSt) (cR : Rect) (t1 t2 : Pt)
    (hd : s.isDrawing = true) :
    (step s (.touchStart cR [t1, t2])).isDrawing = true ∧
    (step s (.touchStart cR [t1, t2])).pinchStart
      = some { dist := hypotQ (t1.x - t2.x) (t1.y - t2.y)
               mid := { x := (t1.x + t2.x) / 2, y := (t1.y + t2.y) / 2 }
               zoom := s.zoom, pan := s.pan } ∧
    (step s (.touchStart cR [t1, t2])).isPanning = false ∧
    (∀ (u : AppSt) (cR2 con2 : Rect) (u1 u2 c lp : Pt),
      u.isDrawing = true → u.lastPoint = some lp →
      getCoordinates (some cR2) u.image (.touch [u1, u2]) true = some c →
      (step u (.touchMove cR2 con2 [u1, u2])).raster
        = u.raster ++ [{ p0 := lp, p1 := c, brush := u.brush }]) := by
  have h2 : ∀ w : AppSt, onTouchStart w [t1, t2]
      = { w with isPanning := false
                 pinchStart := some { dist := hypotQ (t1.x - t2.x) (t1.y - t2.y)
                                      mid := ⟨(t1.x + t2.x) / 2, (t1.y + t2.y) / 2⟩
                                      zoom := w.zoom, pan := w.pan } } := fun w => rfl
  refine ⟨?_, ?_, ?_, ?_⟩
  · simp only [step, h2]
    exact startDrawing_isDrawing s cR _ hd
  · simp only [step, h2]
    rw [startDrawing_zoom, startDrawing_pan]
  · simp only [step, h2]
  · intro u cR2 con2 u1 u2 c lp hud hul huc
    simp only [step]
    rw [onTouchMove_raster, draw_commit u cR2 (.touch [u1, u2]) c lp hud huc hul]

/-- Witness for the corrected C7, at the concrete two-finger states of the
counterexample trace. -/
theorem second_touch_pinches_but_keeps_drawing_witness :
    (step midStrokeState (.touchStart ⟨0, 0, 100, 100⟩ [⟨10, 10⟩, ⟨30, 10⟩])).isDrawing
      = true ∧
    (step twoFingerState
        (.touchMove ⟨0, 0, 100, 100⟩ ⟨0, 0, 100, 100⟩ [⟨50, 10⟩, ⟨70, 10⟩])).raster
      = twoFingerState.raster
        ++ [{ p0 := ⟨10, 10⟩, p1 := ⟨50, 10⟩, brush := twoFingerState.brush }] :=
  ⟨(second_touch_pinches_but_keeps_drawing midStrokeState ⟨0, 0, 100, 100⟩
      ⟨10, 10⟩ ⟨30, 10⟩ rfl).1,
    (second_touch_pinches_but_keeps_drawing midStrokeState ⟨0, 0, 100, 100⟩
      ⟨10, 10⟩ ⟨30, 10⟩ rfl).2.2.2
      twoFingerState ⟨0, 0, 100, 100⟩ ⟨0, 0, 100, 100⟩ ⟨50, 10⟩ ⟨70, 10⟩ ⟨50, 10⟩ ⟨10, 10⟩
      rfl rfl (by norm_num [getCoordinates, renderedBox, clientOf, twoFingerState])⟩

/-- A viewport state with `zoom = 1` and a nonzero pan, used to compare the
zoom buttons with a centered wheel zoom. -/
def pannedViewState : AppSt :=
  { zoom := 1, pan := ⟨100, 0⟩, isPanning := false, panStart := ⟨0, 0, ⟨0, 0⟩⟩
    pinchStart := none, isDrawing := false, lastPoint := none, raster := []
    image := none, brush := ⟨10, "#ef4444"⟩ }

/-- C8 counterexample: from `zoom = 1`, `pan = (100,0)`, the zoom-in button
yields `zoom = 1.2` with the pan left untouched at `(100,0)`, while a wheel
zoom reaching the same `zoom = 1.2` with the synthetic cursor at the
container center rescales the pan to `(120,0)`. The two disagree, so the
button is not a `wheelZoom`-equivalent stepped adjustment at the center (no
wheel delta can match both components, since any centered wheel step
multiplies the pan by its zoom ratio). -/
theorem zoom_button_differs_from_center_wheel :
    (step pannedViewState Ev.zoomIn).zoom = 6/5 ∧
    (step pannedViewState Ev.zoomIn).pan = ⟨100, 0⟩ ∧
    (step pannedViewState (.wheel ⟨0, 0, 400, 300⟩ ⟨200, 150⟩ (-40))).zoom = 6/5 ∧
    (step pannedViewState (.wheel ⟨0, 0, 400, 300⟩ ⟨200, 150⟩ (-40))).pan = ⟨120, 0⟩ ∧
    ((⟨100, 0⟩ : Pt) ≠ (⟨120, 0⟩ : Pt)) := by
  refine ⟨?_, ?_, ?_, ?_, by norm_num [Pt.mk.injEq]⟩ <;>
    norm_num [step, zoomInClick, handleWheel, pannedViewState, min_def, max_def, Pt.mk.injEq]

/-- C8 corrected: the external zoom buttons adjust only the zoom — additively
by 0.2, clamped to `[1,3]` — and leave the pan untouched; they are not
equivalent to a wheel-zoom step with a synthetic cursor at the container
center, which rescales the pan by the zoom ratio `newZoom / oldZoom`. -/
theorem zoom_buttons_additive_pan_untouched (s : AppSt) (rect : Rect) (d : ℚ) :
    (step s Ev.zoomIn).zoom = min 3 (s.zoom + 1/5) ∧
    (step s Ev.zoomIn).pan = s.pan ∧
    (step s Ev.zoomOut).zoom = max 1 (s.zoom - 1/5) ∧
    (step s Ev.zoomOut).pan = s.pan ∧
    (step s (.wheel rect ⟨rect.left + rect.width / 2, rect.top + rect.height / 2⟩ d)).pan
      = ⟨s.pan.x * ((step s (.wheel rect
            ⟨rect.left + rect.width / 2, rect.top + rect.height / 2⟩ d)).zoom / s.zoom),
         s.pan.y * ((step s (.wheel rect
            ⟨rect.left + rect.width / 2, rect.top + rect.height / 2⟩ d)).zoom / s.zoom)⟩ := by
  refine ⟨rfl, rfl, rfl, rfl, ?_⟩
  simp only [step, handleWheel, Pt.mk.injEq]
  constructor <;> ring

/-- C9 counterexample: with the canvas element mounted at its default size
300x150 but no photo yet bound (the raster uninitialized), `toDataURL`
returns a snapshot of the blank canvas — a blank image — and not the
empty-string failure the claim requires. -/
theorem export_blank_when_no_photo :
    toDataURL (some { width := 300, height := 150, photoDrawn := false, raster := [] })
      = .snapshot 300 150 false [] ∧
    (ExportResult.snapshot 300 150 false [] ≠ .emptyStr) :=
  ⟨rfl, fun h => ExportResult.noConfusion h⟩

/-- C9 corrected: `toDataURL` returns the empty string exactly when the
canvas element is not mounted; whenever the canvas is mounted it returns a
snapshot of the current canvas pixels — in particular, with no photo bound
it returns a blank image rather than an explicit failure. -/
theorem toDataURL_empty_iff_unmounted :
    toDataURL none = .emptyStr ∧
    (∀ c : CanvasSurface,
      toDataURL (some c) = .snapshot c.width c.height c.photoDrawn c.raster) ∧
    (∀ c : CanvasSurface, toDataURL (some c) ≠ .emptyStr) :=
  ⟨rfl, fun _ => rfl, fun _ h => ExportResult.noConfusion h⟩

end IvanPhoto
